import Mathlib

/-!
Verification of the core of `mmoney-cli` (`src/mmoney_cli/cli.py`): the
response normalizer (`_extract_records`), the record flattener
(`_flatten_dict`), the CSV and text renderers (`output_csv`, `output_text`),
the mutation gate (`require_mutations` together with `output_error`), the
credential resolver (`get_client`, `load_token_from_keychain`) and the
credential clearing command (`auth_logout`, `delete_token_from_keychain`).

The Python values flowing through the pipeline are modelled by the `JSON`
inductive below: Python `dict`s become association lists in insertion
order (keys are unique in a Python `dict`; lookups take the first match),
Python `list`s become Lean lists, and scalars are strings, integers,
booleans and `None`.  External effects (the system keychain, the session
file, the service collaborator) are modelled as explicit environment
records, and the observable behaviour of a command (text printed, exit
status, which backends were touched) is returned as data.
-/

namespace MMoneyCLI

/-- A JSON-like Python value: the shape of every service Response handled
by the output pipeline of `cli.py`. -/
inductive JSON where
  | str : String → JSON
  | num : Int → JSON
  | bool : Bool → JSON
  | null : JSON
  | arr : List JSON → JSON
  | obj : List (String × JSON) → JSON
  deriving Repr

/-- First-match association-list lookup: Python `d[k]` / `d.get(k)` on a
`dict` modelled as a list of key-value pairs (keys unique in a real dict). -/
def alookup {α : Type} : List (String × α) → String → Option α
  | [], _ => none
  | (k, v) :: rest, key => if k = key then some v else alookup rest key

/-- Python `d[k] = v` on an insertion-ordered dict: replace the value in
place if the key is present, otherwise append the pair at the end. -/
def upsert {α : Type} : List (String × α) → String × α → List (String × α)
  | [], p => [p]
  | q :: rest, p => if q.1 = p.1 then (q.1, p.2) :: rest else q :: upsert rest p

/-- Python `dict(items)`: build an insertion-ordered dict from a pair list,
later occurrences of a key overwriting the value stored at the position of
the first occurrence. -/
def dictOf {α : Type} (items : List (String × α)) : List (String × α) :=
  items.foldl upsert []

/-- Whether a `JSON` value is a Python `list`. -/
def isArr : JSON → Bool
  | .arr _ => true
  | _ => false

/-- Whether a `JSON` value is a Python `dict`. -/
def isObj : JSON → Bool
  | .obj _ => true
  | _ => false

/-- Whether a `JSON` value is a scalar (neither a `dict` nor a `list`). -/
def isScalar : JSON → Bool
  | .arr _ => false
  | .obj _ => false
  | _ => true

/-- The `list_keys` allow-list of `_extract_records` (`cli.py` lines
163-175), in source order. -/
def list_keys : List String :=
  ["accounts", "results", "transactions", "categories",
   "householdTransactionTags", "credentials", "budgetData",
   "recurringTransactions", "splits", "snapshots", "history"]

/-- The single scan of `_extract_records` over the entries of a mapping
Response (`cli.py` lines 178-182): for each entry in iteration order,
first `if isinstance(value, dict) and "results" in value: return
value["results"]`, then `if key in list_keys and isinstance(value, list):
return value`; otherwise move to the next entry. -/
def extractScan : List (String × JSON) → Option JSON
  | [] => none
  | (key, value) :: rest =>
    match value with
    | .obj inner =>
      match alookup inner "results" with
      | some r => some r
      | none => extractScan rest
    | .arr xs =>
      if list_keys.contains key then some (.arr xs) else extractScan rest
    | _ => extractScan rest

/-- `_extract_records` (`cli.py` lines 150-187).  The Python function
returns a Python value: a list in most cases, but in the nested-results
branch it returns `value["results"]` unchecked, which may be any value.
The returned value is embedded as a `JSON`; a returned list of records is
`JSON.arr records`. -/
def _extract_records : JSON → JSON
  | .arr xs => .arr xs
  | .obj kvs =>
    match extractScan kvs with
    | some v => v
    | none => .arr [.obj kvs]
  | _ => .arr []

/-- Escape a character for JSON string serialization (quote and backslash;
other characters used by the claims need no escaping). -/
def escapeJSON (s : String) : String :=
  String.join (s.toList.map (fun c =>
    if c = '"' then "\\\"" else if c = '\\' then "\\\\" else String.singleton c))

mutual

/-- Python `json.dumps` with its default separators `", "` and `": "`, as
called by `_flatten_dict` on list values. -/
def jsonDumps : JSON → String
  | .str s => "\"" ++ escapeJSON s ++ "\""
  | .num n => toString n
  | .bool b => if b then "true" else "false"
  | .null => "null"
  | .arr xs => "[" ++ jsonDumpsList xs ++ "]"
  | .obj kvs => "\x7b" ++ jsonDumpsObj kvs ++ "\x7d"

/-- Elements of a JSON array, joined by `", "`. -/
def jsonDumpsList : List JSON → String
  | [] => ""
  | [x] => jsonDumps x
  | x :: y :: rest => jsonDumps x ++ ", " ++ jsonDumpsList (y :: rest)

/-- Entries of a JSON object, rendered `"key": value` and joined by `", "`. -/
def jsonDumpsObj : List (String × JSON) → String
  | [] => ""
  | [(k, v)] => "\"" ++ escapeJSON k ++ "\": " ++ jsonDumps v
  | (k, v) :: q :: rest =>
    "\"" ++ escapeJSON k ++ "\": " ++ jsonDumps v ++ ", " ++ jsonDumpsObj (q :: rest)

end

/-- The joined key `f"parent_key.sep.k"` of `_flatten_dict`, with the
separator fixed to the default `"."`: `new_key = f"parent_key.k" if
parent_key else k` (`cli.py` line 139). -/
def newKey (parent_key k : String) : String :=
  if parent_key = "" then k else parent_key ++ "." ++ k

/-- The `items` list accumulated by `_flatten_dict` (`cli.py` lines
137-146) before the final `dict(items)`: nested dicts recurse (their own
`dict(...)` applied first, then their `.items()` extended into the list),
list values are replaced by `json.dumps(v) if v else ""`, and scalar
values (including `None`) pass through unchanged. -/
def flattenItems : List (String × JSON) → String → List (String × JSON)
  | [], _ => []
  | (k, v) :: rest, pk =>
    (match v with
     | .obj kvs => dictOf (flattenItems kvs (newKey pk k))
     | .arr xs => [(newKey pk k, .str (if xs.isEmpty then "" else jsonDumps (.arr xs)))]
     | v => [(newKey pk k, v)]) ++ flattenItems rest pk

/-- `_flatten_dict` (`cli.py` lines 135-147): `dict(items)` built from the
accumulated item list.  The second parameter is `parent_key` (top-level
calls pass `""`, the Python default). -/
def _flatten_dict (d : List (String × JSON)) (parent_key : String) : List (String × JSON) :=
  dictOf (flattenItems d parent_key)

mutual

/-- Python `repr` of a value, as used by `str` on containers.  Strings are
single-quoted (escape subtleties of `repr` are irrelevant to the claims,
which never place quotes or control characters inside container strings);
numbers, booleans and `None` render as themselves. -/
def pyRepr : JSON → String
  | .str s => "'" ++ s ++ "'"
  | .num n => toString n
  | .bool b => if b then "True" else "False"
  | .null => "None"
  | .arr xs => "[" ++ pyReprList xs ++ "]"
  | .obj kvs => "\x7b" ++ pyReprObj kvs ++ "\x7d"

/-- Elements of a Python list repr, joined by `", "`. -/
def pyReprList : List JSON → String
  | [] => ""
  | [x] => pyRepr x
  | x :: y :: rest => pyRepr x ++ ", " ++ pyReprList (y :: rest)

/-- Entries of a Python dict repr, rendered `'key': value` and joined by
`", "`. -/
def pyReprObj : List (String × JSON) → String
  | [] => ""
  | [(k, v)] => "'" ++ k ++ "': " ++ pyRepr v
  | (k, v) :: q :: rest => "'" ++ k ++ "': " ++ pyRepr v ++ ", " ++ pyReprObj (q :: rest)

end

/-- Python `str`: identity on strings, `repr`-like on everything else. -/
def pyStr : JSON → String
  | .str s => s
  | v => pyRepr v

/-- The code points of a string, for Python string comparison. -/
def strCodes (s : String) : List Nat := s.toList.map Char.toNat

/-- Strict lexicographic order on code-point lists: Python `<` on
strings. -/
def lexLtN : List Nat → List Nat → Bool
  | [], [] => false
  | [], _ :: _ => true
  | _ :: _, [] => false
  | a :: as, b :: bs => if a < b then true else if b < a then false else lexLtN as bs

/-- Python `<` on strings (code-point lexicographic). -/
def strLt (a b : String) : Bool := lexLtN (strCodes a) (strCodes b)

/-- Python `<=` on strings, as the negation of strict `>`. -/
def strLe (a b : String) : Bool := !(strLt b a)

/-- Insert a string into a list sorted ascending by `strLe`, before the
first element it is `<=`. -/
def insertSortedStr (x : String) : List String → List String
  | [] => [x]
  | y :: ys => if strLe x y then x :: y :: ys else y :: insertSortedStr x ys

/-- Python `sorted` on a collection of strings (insertion sort; Python
uses a stable sort, and the collections sorted here have no duplicates). -/
def sortStrings : List String → List String
  | [] => []
  | x :: xs => insertSortedStr x (sortStrings xs)

/-- Insert a pair into a list sorted ascending by key. -/
def insertSortedPair (x : String × JSON) : List (String × JSON) → List (String × JSON)
  | [] => [x]
  | y :: ys => if strLe x.1 y.1 then x :: y :: ys else y :: insertSortedPair x ys

/-- Python `sorted(flat.items())` in `output_text`: the flattened dict has
unique keys, so tuple comparison orders purely by key. -/
def sortPairsByKey : List (String × JSON) → List (String × JSON)
  | [] => []
  | x :: xs => insertSortedPair x (sortPairsByKey xs)

/-- The per-record flattening step of `output_csv` (`cli.py` line 218):
`_flatten_dict(r) if isinstance(r, dict) else binding the whole record
under the single key "value"`. -/
def csvFlattenRecord (r : JSON) : List (String × JSON) :=
  match r with
  | .obj kvs => _flatten_dict kvs ""
  | r => [("value", r)]

/-- The cell text of one flattened value (`cli.py` line 231):
`str(v) if v is not None else ""`. -/
def stringifyCell : JSON → String
  | .null => ""
  | v => pyStr v

/-- The row dict passed to `writer.writerow` (`cli.py` line 231): every
value of the flattened record stringified. -/
def stringifyRow (fr : List (String × JSON)) : List (String × String) :=
  fr.map (fun p => (p.1, stringifyCell p.2))

/-- The cell rendered for column `k` of the row built from flattened
record `fr`: `csv.DictWriter` fills columns absent from the row dict with
its default `restval`, the empty string. -/
def cellFor (fr : List (String × JSON)) (k : String) : String :=
  (alookup (stringifyRow fr) k).getD ""

/-- `csv.DictWriter._dict_to_list` with `extrasaction="ignore"`: the row
dict read out in field-name order, absent fields as `restval = ""`. -/
def dictToList (fieldnames : List String) (row : List (String × String)) : List String :=
  fieldnames.map (fun k => (alookup row k).getD "")

/-- The field names of `output_csv` (`cli.py` lines 221-224): the union of
the keys of every flattened record (`set.update`), deduplicated and sorted
lexicographically (`sorted(all_keys)`). -/
def fieldnamesOf (flattened : List (List (String × JSON))) : List String :=
  sortStrings ((flattened.map (fun fr => fr.map Prod.fst)).flatten.dedup)

/-- Whether `csv` must quote a field under `QUOTE_MINIMAL` with delimiter
`,`, quote char `"` and line terminator `\x0d\n`. -/
def needsQuote (s : String) : Bool :=
  s.toList.any (fun c => c = ',' || c = '"' || c = '\x0d' || c = '\n')

/-- A CSV field under `QUOTE_MINIMAL`: quoted with doubled quote
characters when needed, verbatim otherwise. -/
def csvQuote (s : String) : String :=
  if needsQuote s then
    "\"" ++ String.join (s.toList.map (fun c =>
      if c = '"' then "\"\"" else String.singleton c)) ++ "\""
  else s

/-- One CSV line: fields quoted as needed and joined by the delimiter. -/
def csvLine (cells : List String) : String :=
  String.intercalate "," (cells.map csvQuote)

/-- Python `str.rstrip()` restricted to the whitespace that can occur
here (the writer terminates lines with `\x0d\n`). -/
def rstripWS (s : String) : String :=
  String.mk ((s.toList.reverse.dropWhile
    (fun c => c = ' ' || c = '\t' || c = '\n' || c = '\x0d')).reverse)

/-- The rows written by `output_csv` (`cli.py` lines 226-231): the header
row of field names followed by one row per flattened record. -/
def output_csv_rows (records : List JSON) : List (List String) :=
  let flattened := records.map csvFlattenRecord
  let fieldnames := fieldnamesOf flattened
  fieldnames :: flattened.map (fun fr => dictToList fieldnames (stringifyRow fr))

/-- `output_csv` (`cli.py` lines 208-233) applied to an already-extracted
record list, returning everything written to standard output: nothing at
all when there are no records, otherwise the CSV text (lines terminated
`\x0d\n` by the writer) right-stripped by `.rstrip()` plus the final
newline of `click.echo`. -/
def output_csv_core (records : List JSON) : String :=
  if records.isEmpty then ""
  else
    rstripWS (String.join ((output_csv_rows records).map
      (fun cells => csvLine cells ++ "\x0d\n"))) ++ "\n"

/-- The lines `output_text` emits for one record (`cli.py` lines 245-250):
a mapping record is flattened and printed as sorted `key=value` lines
(`f"key=value"` with `None` rendered empty), any other record is printed
as `str(record)`. -/
def textRecordLines (r : JSON) : List String :=
  match r with
  | .obj kvs =>
    (sortPairsByKey (_flatten_dict kvs "")).map (fun p => p.1 ++ "=" ++ stringifyCell p.2)
  | r => [pyStr r]

/-- `output_text` (`cli.py` lines 236-250) applied to an already-extracted
record list: the lines printed, with a `---` separator line before every
record but the first. -/
def output_text_core (records : List JSON) : List String :=
  match records with
  | [] => []
  | r :: rest => textRecordLines r ++ (rest.map (fun x => "---" :: textRecordLines x)).flatten

namespace ExitCode

/-- `ExitCode.SUCCESS` (`cli.py` line 43). -/
def SUCCESS : Nat := 0

/-- `ExitCode.GENERAL_ERROR` (`cli.py` line 44). -/
def GENERAL_ERROR : Nat := 1

/-- `ExitCode.AUTH_ERROR` (`cli.py` line 45). -/
def AUTH_ERROR : Nat := 2

/-- `ExitCode.NOT_FOUND` (`cli.py` line 46). -/
def NOT_FOUND : Nat := 3

/-- `ExitCode.VALIDATION_ERROR` (`cli.py` line 47). -/
def VALIDATION_ERROR : Nat := 4

/-- `ExitCode.API_ERROR` (`cli.py` line 48). -/
def API_ERROR : Nat := 5

/-- `ExitCode.MUTATION_BLOCKED` (`cli.py` line 49). -/
def MUTATION_BLOCKED : Nat := 6

end ExitCode

namespace ErrorCode

/-- `ErrorCode.MUTATION_BLOCKED` (`cli.py` line 82). -/
def MUTATION_BLOCKED : String := "MUTATION_BLOCKED"

end ErrorCode

/-- The structured error envelope printed on standard error by
`output_error` (`cli.py` lines 108-115): the `details` field is present
only when a truthy `details` argument was supplied. -/
structure ErrorEnvelope where
  code : String
  message : String
  details : Option String
  deriving Repr, DecidableEq

/-- `output_error` (`cli.py` lines 88-118): builds the error envelope
(omitting `details` when the argument is `None` or empty, per
`if details:`) and exits the process with `exit_code`.  Modelled as the
pair of the envelope written to standard error and the exit status. -/
def output_error (code message : String) (details : Option String) (exit_code : Nat) :
    ErrorEnvelope × Nat :=
  ({ code := code
     message := message
     details :=
       match details with
       | some d => if d = "" then none else some d
       | none => none },
   exit_code)

/-- The observable outcome of running a (possibly gated) command body:
either the process exited early through `output_error`, or the body ran to
completion with a value. -/
inductive ProcResult (α : Type) where
  | exited (err : ErrorEnvelope) (exitCode : Nat)
  | completed (value : α)
  deriving Repr

/-- The `require_mutations` decorator (`cli.py` lines 356-379).
`allow_mutations` is the process-wide flag the wrapper reads from the root
Click context; the wrapped command body `f` is modelled as a state
transformer over an abstract service state `σ` so that invoking the
service is observable.  With the flag unset the wrapper calls
`output_error` with `ErrorCode.MUTATION_BLOCKED` and
`ExitCode.MUTATION_BLOCKED`, which exits before `f` is reached; with the
flag set it tail-calls `f` unchanged. -/
def require_mutations {σ α : Type} (allow_mutations : Bool) (f : σ → σ × α) (s : σ) :
    σ × ProcResult α :=
  if allow_mutations then
    ((f s).1, ProcResult.completed (f s).2)
  else
    let e := output_error ErrorCode.MUTATION_BLOCKED
      "This command modifies data. Use --allow-mutations to enable."
      (some "Example: mmoney --allow-mutations accounts create ...")
      ExitCode.MUTATION_BLOCKED
    (s, ProcResult.exited e.1 e.2)

/-- The service client handle built by `get_client`: the collaborator
state visible to the claims, namely the bearer token recorded by
`set_token` and the outbound header map `_headers`. -/
structure MMClient where
  token : Option String
  headers : List (String × String)
  deriving Repr, DecidableEq

/-- The external world read by `get_client`: the outcome of
`keyring.get_password` (`Except.error` models the backend raising), the
existence of the session file, the effect of the collaborator
`load_session` on the client (`Except.error` models a raising load:
missing or corrupt contents), and the initial headers of a freshly
constructed collaborator client. -/
structure ClientEnv where
  keychainGet : Except Unit (Option String)
  sessionFileExists : Bool
  loadSession : MMClient → Except Unit MMClient
  initHeaders : List (String × String)

/-- The freshly constructed `MonarchMoney(session_file=...)` client: no
token yet, only the collaborator default headers. -/
def ClientEnv.initClient (env : ClientEnv) : MMClient :=
  { token := none, headers := env.initHeaders }

/-- `load_token_from_keychain` (`cli.py` lines 295-303): the keychain
token, with any backend exception caught and turned into `None`. -/
def load_token_from_keychain (env : ClientEnv) : Option String :=
  match env.keychainGet with
  | .ok t => t
  | .error _ => none

/-- Which credential backends a resolution touched, in order. -/
inductive BackendRead where
  | keychain
  | sessionFile
  deriving Repr, DecidableEq

/-- The collaborator `mm.set_token(token)`: record the bearer token on the
client. -/
def set_token (mm : MMClient) (t : String) : MMClient :=
  { mm with token := some t }

/-- The file-backend fallback of `get_client` (`cli.py` lines 332-338):
check `_SESSION_FILE.exists()`, attempt `load_session` when it does, and
swallow any exception (`except Exception: pass`). -/
def load_session_fallback (env : ClientEnv) (mm : MMClient) : MMClient × List BackendRead :=
  if env.sessionFileExists then
    match env.loadSession mm with
    | .ok mm2 => (mm2, [.keychain, .sessionFile])
    | .error _ => (mm, [.keychain, .sessionFile])
  else (mm, [.keychain, .sessionFile])

/-- `get_client` (`cli.py` lines 318-338): try the keychain first; on a
truthy (non-empty) token set it on the client, set the
`Authorization: Token <token>` header and return without touching the
session file; otherwise fall back to the session file.  Returns the
client together with the list of backends read. -/
def get_client (env : ClientEnv) : MMClient × List BackendRead :=
  match load_token_from_keychain env with
  | some t =>
    if t = "" then load_session_fallback env env.initClient
    else
      let mm := set_token env.initClient t
      ({ mm with headers := upsert mm.headers ("Authorization", "Token " ++ t) },
       [.keychain])
  | none => load_session_fallback env env.initClient

/-- The external world read by `auth_logout`: whether the keychain holds
the token entry, whether the keyring backend is operational (a
non-operational backend makes `keyring.delete_password` raise), whether
the session file exists, and whether `unlink` succeeds when attempted. -/
structure LogoutEnv where
  keychainHasToken : Bool
  keychainOk : Bool
  sessionFileExists : Bool
  unlinkOk : Bool
  deriving Repr, DecidableEq

/-- `delete_token_from_keychain` (`cli.py` lines 306-315):
`keyring.delete_password` deletes the entry and returns normally exactly
when the backend works and the entry exists; it raises
`PasswordDeleteError` on a missing entry and backend errors otherwise,
both caught and turned into `False`. -/
def delete_token_from_keychain (env : LogoutEnv) : Bool :=
  env.keychainOk && env.keychainHasToken

/-- The removal attempts `auth_logout` performs, in order. -/
inductive LogoutOp where
  | keychainDelete
  | fileUnlink
  deriving Repr, DecidableEq

/-- `auth_logout` (`cli.py` lines 561-579): always attempt the keychain
deletion; independently attempt `unlink` whenever the session file
exists, swallowing unlink errors; then report `Session deleted.` when
either attempt deleted something and `No session found.` otherwise.
Returns the message printed and the removal attempts made. -/
def auth_logout (env : LogoutEnv) : String × List LogoutOp :=
  let keychain_deleted := delete_token_from_keychain env
  let file_deleted := env.sessionFileExists && env.unlinkOk
  let ops :=
    if env.sessionFileExists then [LogoutOp.keychainDelete, LogoutOp.fileUnlink]
    else [LogoutOp.keychainDelete]
  (if keychain_deleted || file_deleted then "Session deleted." else "No session found.", ops)

/-- The value the scan of `_extract_records` extracts from a single entry,
if any: the inner `results` field of a mapping value, or an allow-listed
sequence value.  Used to state how the interleaved scan resolves the two
rules. -/
def entryMatchValue (key : String) (value : JSON) : Option JSON :=
  match value with
  | .obj inner => alookup inner "results"
  | .arr xs => if list_keys.contains key then some (.arr xs) else none
  | _ => none

/-- A Response holding both an allow-listed sequence (under `accounts`,
first in iteration order) and a nested paginated envelope (under
`envelope`, second): the shape on which the one-pass scan and the
two-pass reading of the spec disagree. -/
def c1input : JSON :=
  JSON.obj [("accounts", JSON.arr [JSON.str "A"]),
            ("envelope", JSON.obj [("results", JSON.arr [JSON.str "R"])])]

/-- A mapping Response whose only value is a mapping containing a
`results` field that is not a sequence. -/
def c2input : JSON :=
  JSON.obj [("envelope", JSON.obj [("results", JSON.num 5)])]

/-- A logout world where the keychain is empty (and operational), and the
session file exists but `unlink` fails. -/
def c9env : LogoutEnv :=
  { keychainHasToken := false, keychainOk := true,
    sessionFileExists := true, unlinkOk := false }

/-- A client world where the keychain lookup yields the token `tok`
while a session file also exists and would load successfully. -/
def c4env : ClientEnv :=
  { keychainGet := .ok (some "tok"), sessionFileExists := true,
    loadSession := fun mm => .ok mm, initHeaders := [] }

/-- A client world where the keychain is empty and the session file
exists but raises on load. -/
def c5env : ClientEnv :=
  { keychainGet := .ok none, sessionFileExists := true,
    loadSession := fun _ => .error (), initHeaders := [] }

/-- The scan treats each entry by the per-entry match: the nested-results
rule first, the allow-list rule second, then the next entry. -/
theorem extractScan_cons (k : String) (v : JSON) (rest : List (String × JSON)) :
    extractScan ((k, v) :: rest) =
      match entryMatchValue k v with
      | some w => some w
      | none => extractScan rest := by
  cases v with
  | str s => rfl
  | num n => rfl
  | bool b => rfl
  | null => rfl
  | arr xs =>
    by_cases h : k ∈ list_keys
    · simp [extractScan, entryMatchValue, h]
    · simp [extractScan, entryMatchValue, h]
  | obj inner =>
    cases halookup : alookup inner "results" <;>
      simp [extractScan, entryMatchValue, halookup]

/-- Entries matched by neither rule are skipped by the scan. -/
theorem extractScan_append_of_none (pre l : List (String × JSON))
    (hpre : ∀ p ∈ pre, entryMatchValue p.1 p.2 = none) :
    extractScan (pre ++ l) = extractScan l := by
  induction pre with
  | nil => rfl
  | cons hd tl ih =>
    obtain ⟨k, v⟩ := hd
    rw [List.cons_append, extractScan_cons, hpre (k, v) (List.mem_cons_self _ _)]
    exact ih (fun p hp => hpre p (List.mem_cons_of_mem _ hp))

/-- Claim C1 (counterexample): `c1input` is a mapping holding both a
nested paginated envelope (under `envelope`, whose `results` field is a
sequence) and an allow-listed sequence (under `accounts`, which comes
first in iteration order), yet `_extract_records` returns the
`accounts` sequence, not the nested `results` sequence the claim
requires: the nested-results rule is not applied as a complete scan
before the allow-list rule. -/
theorem c1_counterexample :
    _extract_records c1input = JSON.arr [JSON.str "A"] ∧
    alookup [("results", JSON.arr [JSON.str "R"])] "results" =
      some (JSON.arr [JSON.str "R"]) ∧
    list_keys.contains "accounts" = true ∧
    JSON.arr [JSON.str "A"] ≠ JSON.arr [JSON.str "R"] := by
  refine ⟨rfl, rfl, rfl, ?_⟩
  simp

/-- Claim C1 (amended): the two extraction rules are applied in one
interleaved scan over the entries in iteration order.  For the first
entry where either rule matches — the nested-results rule checked before
the allow-list rule on that same entry — `_extract_records` returns the
value that rule extracts, regardless of rules matching later entries. -/
theorem c1_amended (pre rest : List (String × JSON)) (k : String) (v w : JSON)
    (hpre : ∀ p ∈ pre, entryMatchValue p.1 p.2 = none)
    (hm : entryMatchValue k v = some w) :
    _extract_records (JSON.obj (pre ++ (k, v) :: rest)) = w := by
  have hscan : extractScan (pre ++ (k, v) :: rest) = some w := by
    rw [extractScan_append_of_none pre _ hpre, extractScan_cons, hm]
  simp [_extract_records, hscan]

/-- Claim C1 (amended, witness): with a non-matching entry before it, an
allow-listed sequence entry wins even though a nested `results` envelope
follows it. -/
theorem c1_amended_witness :
    entryMatchValue "accounts" (JSON.arr []) = some (JSON.arr []) ∧
    _extract_records (JSON.obj ([("x", JSON.num 1)] ++
      ("accounts", JSON.arr []) ::
        [("envelope", JSON.obj [("results", JSON.arr [JSON.num 2])])])) = JSON.arr [] := by
  refine ⟨rfl, ?_⟩
  exact c1_amended [("x", JSON.num 1)] _ "accounts" (JSON.arr []) (JSON.arr [])
    (fun p hp => by rw [List.mem_singleton] at hp; subst hp; rfl) rfl

/-- Claim C2 (counterexample): on a mapping whose value is a mapping with
a non-sequence `results` field the nested rule fires anyway, and
`_extract_records` returns the non-sequence `5` — so the rule does not
require the inner `results` to be a sequence, and the result is not
always a sequence of records. -/
theorem c2_counterexample :
    _extract_records c2input = JSON.num 5 ∧
    isArr (JSON.num 5) = false ∧
    alookup [("results", JSON.num 5)] "results" = some (JSON.num 5) :=
  ⟨rfl, rfl, rfl⟩

/-- Claim C2 (amended): the nested-pagination rule matches as soon as a
value is a mapping containing a field named `results`, whatever that
field holds, and `_extract_records` then returns that field value as-is
(which therefore need not be a sequence). -/
theorem c2_amended (k : String) (inner rest : List (String × JSON)) (w : JSON)
    (hm : alookup inner "results" = some w) :
    _extract_records (JSON.obj ((k, JSON.obj inner) :: rest)) = w := by
  simp [_extract_records, extractScan, hm]

/-- Claim C2 (amended, witness): a `results` field holding `None` is
returned as-is. -/
theorem c2_amended_witness :
    alookup [("results", JSON.null)] "results" = some JSON.null ∧
    _extract_records (JSON.obj [("envelope", JSON.obj [("results", JSON.null)])]) =
      JSON.null :=
  ⟨rfl, c2_amended "envelope" [("results", JSON.null)] [] JSON.null rfl⟩

/-- Claim C3: with the mutation flag unset, a gated command exits with
the `MUTATION_BLOCKED` error envelope and exit status 6, leaving the
service state untouched and independent of the wrapped body (which is
therefore never invoked); with the flag set, the body is applied exactly
once and its outcome passed through unchanged. -/
theorem c3_require_mutations {σ α : Type} (f g : σ → σ × α) (s : σ) :
    require_mutations false f s =
      (s, ProcResult.exited
        { code := "MUTATION_BLOCKED"
          message := "This command modifies data. Use --allow-mutations to enable."
          details := some "Example: mmoney --allow-mutations accounts create ..." }
        6) ∧
    require_mutations false f s = require_mutations false g s ∧
    require_mutations true f s = ((f s).1, ProcResult.completed (f s).2) :=
  ⟨rfl, rfl, rfl⟩

/-- Claim C9 (counterexample): with an empty keychain and a session file
that exists but whose `unlink` raises, `auth_logout` reports
`No session found.` although the file backend held a session artifact —
refuting "reports nothing-found only when both backends were already
empty". -/
theorem c9_counterexample :
    (auth_logout c9env).1 = "No session found." ∧ c9env.sessionFileExists = true :=
  ⟨rfl, rfl⟩

/-- Claim C9 (amended): `auth_logout` attempts the keychain removal
unconditionally and the file removal whenever the session file exists
(regardless of the keychain outcome), never raises, and reports
`Session deleted.` exactly when at least one removal actually succeeded;
a backend that held data but errored during removal counts as nothing
deleted, so `No session found.` can be reported although a backend was
non-empty. -/
theorem c9_amended (env : LogoutEnv) :
    ((auth_logout env).1 = "Session deleted." ↔
      (delete_token_from_keychain env = true ∨
        (env.sessionFileExists = true ∧ env.unlinkOk = true))) ∧
    LogoutOp.keychainDelete ∈ (auth_logout env).2 ∧
    (LogoutOp.fileUnlink ∈ (auth_logout env).2 ↔ env.sessionFileExists = true) := by
  obtain ⟨a, b, c, d⟩ := env
  cases a <;> cases b <;> cases c <;> cases d <;>
    simp [auth_logout, delete_token_from_keychain]

/-- After `d[k] = v`, looking up `k` yields `v`. -/
theorem alookup_upsert_self {α : Type} (l : List (String × α)) (k : String) (v : α) :
    alookup (upsert l (k, v)) k = some v := by
  induction l with
  | nil => simp [upsert, alookup]
  | cons q rest ih =>
    by_cases h : q.1 = k
    · simp [upsert, alookup, h]
    · simp [upsert, alookup, h, ih]

/-- Claim C4: when the keychain lookup yields a non-empty token,
`get_client` reads only the keychain (the session file backend is never
touched), records the token on the client and sets the outbound
`Authorization` header to `Token <token>` before returning. -/
theorem c4_get_client (env : ClientEnv) (t : String)
    (hk : load_token_from_keychain env = some t) (ht : t ≠ "") :
    (get_client env).2 = [BackendRead.keychain] ∧
    BackendRead.sessionFile ∉ (get_client env).2 ∧
    alookup (get_client env).1.headers "Authorization" = some ("Token " ++ t) ∧
    (get_client env).1.token = some t := by
  have hget : get_client env =
      ({ token := some t,
         headers := upsert env.initHeaders ("Authorization", "Token " ++ t) },
       [BackendRead.keychain]) := by
    simp [get_client, hk, ht, set_token, ClientEnv.initClient]
  rw [hget]
  refine ⟨rfl, by simp, alookup_upsert_self _ _ _, rfl⟩

/-- Claim C4 (witness): a concrete world with token `tok` in the
keychain and a loadable session file. -/
theorem c4_witness :
    load_token_from_keychain c4env = some "tok" ∧ "tok" ≠ "" ∧
    ((get_client c4env).2 = [BackendRead.keychain] ∧
     BackendRead.sessionFile ∉ (get_client c4env).2 ∧
     alookup (get_client c4env).1.headers "Authorization" = some ("Token " ++ "tok") ∧
     (get_client c4env).1.token = some "tok") :=
  ⟨rfl, by simp, c4_get_client c4env "tok" rfl (by simp)⟩

/-- Claim C5: when the keychain yields no token (absent, or the backend
raised — both collapse to `None` in `load_token_from_keychain`) and the
file backend is missing or raises on load, `get_client` returns the
freshly constructed, unauthenticated client without raising. -/
theorem c5_get_client (env : ClientEnv)
    (hk : load_token_from_keychain env = none)
    (hf : env.sessionFileExists = false ∨
      env.loadSession env.initClient = Except.error ()) :
    (get_client env).1 = env.initClient ∧ (get_client env).1.token = none := by
  have h1 : (get_client env).1 = env.initClient := by
    rcases hf with hfalse | herr
    · simp [get_client, hk, load_session_fallback, hfalse]
    · by_cases hex : env.sessionFileExists <;>
        simp [get_client, hk, load_session_fallback, hex, herr]
  exact ⟨h1, by rw [h1]; rfl⟩

/-- Claim C5 (witness): a concrete world with an empty keychain and a
session file whose load raises. -/
theorem c5_witness :
    load_token_from_keychain c5env = none ∧
    c5env.loadSession c5env.initClient = Except.error () ∧
    ((get_client c5env).1 = c5env.initClient ∧ (get_client c5env).1.token = none) :=
  ⟨rfl, rfl, c5_get_client c5env rfl (Or.inr rfl)⟩

/-- Strict lexicographic order is asymmetric. -/
theorem lexLtN_asymm : ∀ a b : List Nat, lexLtN a b = true → lexLtN b a = false
  | [], [] => by simp [lexLtN]
  | [], _ :: _ => by simp [lexLtN]
  | _ :: _, [] => by simp [lexLtN]
  | a :: as, b :: bs => by
    intro h
    rcases Nat.lt_trichotomy a b with hab | hab | hab
    · simp [lexLtN, hab, Nat.lt_asymm hab]
    · subst hab
      simp only [lexLtN, Nat.lt_irrefl, if_false] at h ⊢
      exact lexLtN_asymm as bs h
    · simp [lexLtN, hab, Nat.lt_asymm hab] at h

/-- Strict lexicographic order is connex: anything below `a` is below any
`b` or has `b` below `a`. -/
theorem lexLtN_connex : ∀ c a b : List Nat, lexLtN c a = true →
    lexLtN c b = true ∨ lexLtN b a = true
  | c, [], _ => by
    intro h
    exfalso
    cases c <;> simp [lexLtN] at h
  | _, _ :: _, [] => by
    intro _
    right
    simp [lexLtN]
  | [], _ :: _, _ :: _ => by
    intro _
    left
    simp [lexLtN]
  | z :: zs, x :: xs, y :: ys => by
    intro h
    by_cases h1 : z < y
    · left
      simp [lexLtN, h1]
    · by_cases h2 : y < x
      · right
        simp [lexLtN, h2]
      · have hzx : ¬ z < x := by omega
        by_cases h3 : x < z
        · simp [lexLtN, hzx, h3] at h
        · have hxz : x = z := by omega
          have hyz : y = z := by omega
          subst hxz
          subst hyz
          simp only [lexLtN, Nat.lt_irrefl, if_false] at h ⊢
          exact lexLtN_connex zs xs ys h

/-- Totality of the modelled Python string `<=`. -/
theorem strLe_total (a b : String) : strLe a b = true ∨ strLe b a = true := by
  cases hba : strLt b a with
  | false => left; simp [strLe, hba]
  | true => right; simp [strLe, strLt, lexLtN_asymm _ _ hba]

/-- Transitivity of the modelled Python string `<=`. -/
theorem strLe_trans (a b c : String) (hab : strLe a b = true) (hbc : strLe b c = true) :
    strLe a c = true := by
  have hba : strLt b a = false := by
    cases hx : strLt b a
    · rfl
    · rw [strLe, hx] at hab; simp at hab
  have hcb : strLt c b = false := by
    cases hx : strLt c b
    · rfl
    · rw [strLe, hx] at hbc; simp at hbc
  cases hca : strLt c a with
  | false => simp [strLe, hca]
  | true =>
    exfalso
    rcases lexLtN_connex (strCodes c) (strCodes a) (strCodes b) hca with h1 | h2
    · have h1x : strLt c b = true := h1
      rw [hcb] at h1x
      cases h1x
    · have h2x : strLt b a = true := h2
      rw [hba] at h2x
      cases h2x

/-- Membership in an ordered insertion. -/
theorem mem_insertSortedStr (x a : String) (l : List String) :
    a ∈ insertSortedStr x l ↔ a = x ∨ a ∈ l := by
  induction l with
  | nil => simp [insertSortedStr]
  | cons y ys ih =>
    by_cases h : strLe x y = true
    · simp [insertSortedStr, h]
    · simp [insertSortedStr, h, ih]
      tauto

/-- Ordered insertion permutes consing. -/
theorem insertSortedStr_perm (x : String) (l : List String) :
    List.Perm (insertSortedStr x l) (x :: l) := by
  induction l with
  | nil => exact List.Perm.refl _
  | cons y ys ih =>
    by_cases h : strLe x y = true
    · simp [insertSortedStr, h]
    · rw [insertSortedStr, if_neg h]
      exact (ih.cons y).trans (List.Perm.swap x y ys)

/-- `sortStrings` permutes its input. -/
theorem sortStrings_perm (l : List String) : List.Perm (sortStrings l) l := by
  induction l with
  | nil => exact List.Perm.refl _
  | cons x xs ih => exact (insertSortedStr_perm x (sortStrings xs)).trans (ih.cons x)

/-- Membership in the sorted list. -/
theorem mem_sortStrings (a : String) (l : List String) : a ∈ sortStrings l ↔ a ∈ l :=
  (sortStrings_perm l).mem_iff

/-- Ordered insertion preserves sortedness. -/
theorem pairwise_insertSortedStr (x : String) (l : List String)
    (hl : l.Pairwise (fun a b => strLe a b = true)) :
    (insertSortedStr x l).Pairwise (fun a b => strLe a b = true) := by
  induction l with
  | nil => simp [insertSortedStr]
  | cons y ys ih =>
    rcases List.pairwise_cons.mp hl with ⟨hy, hys⟩
    by_cases h : strLe x y = true
    · rw [insertSortedStr, if_pos h]
      refine List.pairwise_cons.mpr ⟨?_, hl⟩
      intro b hb
      rcases List.mem_cons.mp hb with rfl | hb
      · exact h
      · exact strLe_trans x y b h (hy b hb)
    · rw [insertSortedStr, if_neg h]
      refine List.pairwise_cons.mpr ⟨?_, ih hys⟩
      intro b hb
      rcases (mem_insertSortedStr x b ys).mp hb with hbx | hb
      · rw [hbx]
        rcases strLe_total x y with ht | ht
        · exact absurd ht h
        · exact ht
      · exact hy b hb

/-- `sortStrings` sorts ascending by the modelled Python `<=`. -/
theorem sortStrings_sorted (l : List String) :
    (sortStrings l).Pairwise (fun a b => strLe a b = true) := by
  induction l with
  | nil => simp [sortStrings]
  | cons x xs ih => exact pairwise_insertSortedStr x (sortStrings xs) ih

/-- `sortStrings` preserves distinctness. -/
theorem sortStrings_nodup (l : List String) (h : l.Nodup) : (sortStrings l).Nodup :=
  (sortStrings_perm l).nodup_iff.mpr h

/-- Claim C9 (amended, witness): with a token in an operational keychain
and no session file, logout reports deletion. -/
theorem c9_amended_witness :
    (auth_logout { keychainHasToken := true, keychainOk := true,
                   sessionFileExists := false, unlinkOk := false }).1 =
      "Session deleted." :=
  ((c9_amended _).1).mpr (Or.inl rfl)

/-- The keys after `d[k] = v`: unchanged when the key was present,
appended otherwise. -/
theorem upsert_keys {α : Type} (l : List (String × α)) (p : String × α) :
    (upsert l p).map Prod.fst =
      if p.1 ∈ l.map Prod.fst then l.map Prod.fst else l.map Prod.fst ++ [p.1] := by
  induction l with
  | nil => simp [upsert]
  | cons q rest ih =>
    by_cases h : q.1 = p.1
    · simp [upsert, h]
    · by_cases hm : p.1 ∈ rest.map Prod.fst
      · simp [upsert, h, ih, hm, Ne.symm h]
      · simp [upsert, h, ih, hm, Ne.symm h]

/-- `d[k] = v` preserves distinctness of keys. -/
theorem nodupKeys_upsert {α : Type} (l : List (String × α)) (p : String × α)
    (h : (l.map Prod.fst).Nodup) : ((upsert l p).map Prod.fst).Nodup := by
  rw [upsert_keys]
  by_cases hm : p.1 ∈ l.map Prod.fst
  · simp [hm, h]
  · simp only [hm, if_false, List.nodup_append, List.nodup_singleton]
    refine ⟨h, trivial, ?_⟩
    intro a ha hap
    rw [List.mem_singleton.mp hap] at ha
    exact hm ha

/-- Accumulator invariant: folding `upsert` keeps keys distinct. -/
theorem dictOf_keys_nodup_aux {α : Type} :
    ∀ (items acc : List (String × α)), (acc.map Prod.fst).Nodup →
      ((items.foldl upsert acc).map Prod.fst).Nodup
  | [], _, h => h
  | p :: rest, acc, h =>
    dictOf_keys_nodup_aux rest (upsert acc p) (nodupKeys_upsert acc p h)

/-- A Python dict has distinct keys. -/
theorem dictOf_keys_nodup {α : Type} (items : List (String × α)) :
    ((dictOf items).map Prod.fst).Nodup :=
  dictOf_keys_nodup_aux items [] (by simp)

/-- Every pair in `d` after `d[k] = v` was in `d` before or is the new
pair. -/
theorem mem_upsert {α : Type} (q : String × α) (l : List (String × α)) (p : String × α) :
    q ∈ upsert l p → q ∈ l ∨ q = p := by
  induction l with
  | nil =>
    intro h
    right
    simpa [upsert] using h
  | cons r rest ih =>
    intro h
    by_cases hr : r.1 = p.1
    · rw [upsert, if_pos hr] at h
      rcases List.mem_cons.mp h with h | h
      · right
        rw [h, hr]
      · left
        exact List.mem_cons_of_mem _ h
    · rw [upsert, if_neg hr] at h
      rcases List.mem_cons.mp h with h | h
      · left
        exact h ▸ List.mem_cons_self _ _
      · rcases ih h with h2 | h2
        · left
          exact List.mem_cons_of_mem _ h2
        · right
          exact h2

/-- Accumulator invariant: every pair of the fold came from the
accumulator or the item list. -/
theorem mem_dictOf_aux {α : Type} :
    ∀ (items acc : List (String × α)) (q : String × α),
      q ∈ items.foldl upsert acc → q ∈ acc ∨ q ∈ items
  | [], _, _, h => Or.inl h
  | p :: rest, acc, q, h => by
    rcases mem_dictOf_aux rest (upsert acc p) q h with h2 | h2
    · rcases mem_upsert q acc p h2 with h3 | h3
      · exact Or.inl h3
      · exact Or.inr (h3 ▸ List.mem_cons_self _ _)
    · exact Or.inr (List.mem_cons_of_mem _ h2)

/-- Every pair of `dict(items)` is one of the items. -/
theorem mem_dictOf {α : Type} (items : List (String × α)) (q : String × α)
    (h : q ∈ dictOf items) : q ∈ items := by
  rcases mem_dictOf_aux items [] q h with h2 | h2
  · cases h2
  · exact h2

/-- Setting a fresh key appends the pair. -/
theorem upsert_of_not_mem {α : Type} (l : List (String × α)) (p : String × α)
    (h : p.1 ∉ l.map Prod.fst) : upsert l p = l ++ [p] := by
  induction l with
  | nil => rfl
  | cons r rest ih =>
    simp only [List.map_cons, List.mem_cons] at h
    push_neg at h
    rw [upsert, if_neg (fun hh => h.1 hh.symm), ih h.2]
    rfl

/-- Folding `upsert` over pairwise-distinct keys just appends. -/
theorem dictOf_of_nodup_aux {α : Type} :
    ∀ (items acc : List (String × α)),
      ((acc ++ items).map Prod.fst).Nodup → items.foldl upsert acc = acc ++ items
  | [], acc, _ => by simp
  | p :: rest, acc, h => by
    have hp : p.1 ∉ acc.map Prod.fst := by
      intro hmem
      rw [List.map_append] at h
      obtain ⟨_, _, hdisj⟩ := List.nodup_append.mp h
      exact hdisj hmem (by simp)
    have h2 : (((acc ++ [p]) ++ rest).map Prod.fst).Nodup := by
      simpa [List.append_assoc] using h
    rw [List.foldl_cons, upsert_of_not_mem acc p hp, dictOf_of_nodup_aux rest (acc ++ [p]) h2]
    simp

/-- `dict(items)` is the identity on pair lists with distinct keys. -/
theorem dictOf_of_nodupKeys {α : Type} (l : List (String × α))
    (h : (l.map Prod.fst).Nodup) : dictOf l = l := by
  have := dictOf_of_nodup_aux l [] (by simpa using h)
  simpa [dictOf] using this

/-- `dict` is idempotent. -/
theorem dictOf_idem {α : Type} (l : List (String × α)) : dictOf (dictOf l) = dictOf l :=
  dictOf_of_nodupKeys _ (dictOf_keys_nodup l)

/-- Lookup misses exactly outside the key set. -/
theorem alookup_eq_none {α : Type} (l : List (String × α)) (k : String)
    (h : k ∉ l.map Prod.fst) : alookup l k = none := by
  induction l with
  | nil => rfl
  | cons p rest ih =>
    obtain ⟨k0, v⟩ := p
    simp only [List.map_cons, List.mem_cons] at h
    push_neg at h
    rw [alookup, if_neg (fun hh => h.1 hh.symm)]
    exact ih h.2

/-- Stringifying a row commutes with lookup. -/
theorem alookup_stringifyRow (fr : List (String × JSON)) (k : String) :
    alookup (stringifyRow fr) k = (alookup fr k).map stringifyCell := by
  induction fr with
  | nil => rfl
  | cons p rest ih =>
    obtain ⟨k0, v⟩ := p
    by_cases h : k0 = k
    · simp [stringifyRow, alookup, h]
    · have hr : alookup ((k0, v) :: rest) k = alookup rest k := by
        rw [alookup, if_neg h]
      simp only [stringifyRow, List.map_cons, hr]
      rw [alookup, if_neg h]
      exact ih

/-- With distinct keys, lookup finds the stored pair. -/
theorem alookup_of_mem_nodup {α : Type} (l : List (String × α)) (k : String) (v : α)
    (hnd : (l.map Prod.fst).Nodup) (hmem : (k, v) ∈ l) : alookup l k = some v := by
  induction l with
  | nil => cases hmem
  | cons p rest ih =>
    obtain ⟨k0, v0⟩ := p
    simp only [List.map_cons, List.nodup_cons] at hnd
    rcases List.mem_cons.mp hmem with h | h
    · rw [Prod.mk.injEq] at h
      obtain ⟨rfl, rfl⟩ := h
      simp [alookup]
    · have hne : k0 ≠ k := by
        intro hkk
        subst hkk
        exact hnd.1 (List.mem_map_of_mem Prod.fst h)
      rw [alookup, if_neg hne]
      exact ih hnd.2 h

/-- On a mapping whose values are all scalars the accumulated item list
is the mapping itself: keys are unjoined at top level and scalar values
pass through. -/
theorem flattenItems_of_scalar (d : List (String × JSON))
    (h : ∀ p ∈ d, isScalar p.2 = true) : flattenItems d "" = d := by
  induction d with
  | nil => rw [flattenItems]
  | cons p rest ih =>
    obtain ⟨k, v⟩ := p
    have hv := h (k, v) (List.mem_cons_self _ _)
    have hrest := ih (fun q hq => h q (List.mem_cons_of_mem _ hq))
    cases v <;> simp_all [flattenItems, newKey, isScalar]

/-- Claim C7 (counterexample): `_flatten_dict` maps a field holding the
empty sequence to the empty string, not to `"[]"`, the JSON text of the
empty sequence — refuting "an empty sequence is replaced by the JSON
text of the empty sequence". -/
theorem c7_counterexample :
    _flatten_dict [("a", JSON.arr [])] "" = [("a", JSON.str "")] ∧
    jsonDumps (JSON.arr []) = "[]" ∧
    JSON.str "" ≠ JSON.str "[]" := by
  refine ⟨?_, ?_, by simp⟩
  · simp [_flatten_dict, flattenItems, newKey, dictOf, upsert]
  · simp [jsonDumps, jsonDumpsList]

/-- Claim C7 (amended): a field holding a non-empty sequence flattens to
the serialized JSON text of that sequence, while a field holding an
empty sequence flattens to the empty string (Python
`json.dumps(v) if v else ""`): the corresponding pair is accumulated
into the item list of `_flatten_dict`. -/
theorem c7_amended : ∀ (d : List (String × JSON)) (pk k : String) (xs : List JSON),
    (k, JSON.arr xs) ∈ d →
    (newKey pk k, JSON.str (if xs.isEmpty then "" else jsonDumps (JSON.arr xs)))
      ∈ flattenItems d pk
  | [], _, _, _, hmem => by cases hmem
  | p :: rest, pk, k, xs, hmem => by
    rcases List.mem_cons.mp hmem with h | h
    · subst h
      rw [flattenItems]
      exact List.mem_append_left _ (List.mem_singleton_self _)
    · have hrec := c7_amended rest pk k xs h
      obtain ⟨k2, v2⟩ := p
      cases v2 <;> rw [flattenItems] <;>
        first
          | exact List.mem_append_right _ hrec
          | (intro _ heq; exact JSON.noConfusion heq)

/-- Claim C7 (amended, witness): a non-empty sequence field is
accumulated with its JSON text. -/
theorem c7_amended_witness :
    (("a", JSON.arr [JSON.bool true]) ∈ [(("a" : String), JSON.arr [JSON.bool true])]) ∧
    (newKey "" "a",
      JSON.str (if ([JSON.bool true] : List JSON).isEmpty then ""
        else jsonDumps (JSON.arr [JSON.bool true])))
      ∈ flattenItems [("a", JSON.arr [JSON.bool true])] "" :=
  ⟨List.mem_singleton_self _,
   c7_amended _ "" "a" _ (List.mem_singleton_self _)⟩

/-- Claim C8: flattening is idempotent on already-flat mappings — on a
mapping all of whose values are scalars, `_flatten_dict` applied twice
equals `_flatten_dict` applied once. -/
theorem c8_flatten_idempotent (r : List (String × JSON))
    (h : ∀ p ∈ r, isScalar p.2 = true) :
    _flatten_dict (_flatten_dict r "") "" = _flatten_dict r "" := by
  have h1 : _flatten_dict r "" = dictOf r := by
    rw [_flatten_dict, flattenItems_of_scalar r h]
  have hscalar : ∀ p ∈ dictOf r, isScalar p.2 = true :=
    fun p hp => h p (mem_dictOf r p hp)
  rw [h1, _flatten_dict, flattenItems_of_scalar _ hscalar, dictOf_idem]

/-- Claim C8 (witness): a concrete flat mapping of scalars. -/
theorem c8_witness :
    (∀ p ∈ [(("a" : String), JSON.num 1), ("b", JSON.null)], isScalar p.2 = true) ∧
    _flatten_dict (_flatten_dict [("a", JSON.num 1), ("b", JSON.null)] "") "" =
      _flatten_dict [("a", JSON.num 1), ("b", JSON.null)] "" :=
  ⟨by decide, c8_flatten_idempotent _ (by decide)⟩

/-- Stringifying a row keeps its key list. -/
theorem stringifyRow_keys (fr : List (String × JSON)) :
    (stringifyRow fr).map Prod.fst = fr.map Prod.fst := by
  simp [stringifyRow, List.map_map]

/-- Every flattened record used by `output_csv` has distinct keys: a
mapping record flattens through `dict(items)`, any other record becomes
the one-field `value` record. -/
theorem csvFlattenRecord_keys_nodup (r : JSON) :
    ((csvFlattenRecord r).map Prod.fst).Nodup := by
  cases r <;>
    simp [csvFlattenRecord, _flatten_dict, dictOf_keys_nodup]

/-- Claim C6: the CSV renderer (a) emits nothing at all on zero records;
(b) uses as column set exactly the union of the flattened keys of all
records, (c) sorted lexicographically without duplicates; (d) its rows
are the header followed by one row per record whose cells are `cellFor`;
(e) a key absent from a record renders as the empty field; and (f) a
`None` value renders as the empty field. -/
theorem c6_output_csv (records : List JSON) :
    (records = [] → output_csv_core records = "") ∧
    (∀ k, k ∈ fieldnamesOf (records.map csvFlattenRecord) ↔
      ∃ fr ∈ records.map csvFlattenRecord, k ∈ fr.map Prod.fst) ∧
    (fieldnamesOf (records.map csvFlattenRecord)).Pairwise (fun a b => strLe a b = true) ∧
    (fieldnamesOf (records.map csvFlattenRecord)).Nodup ∧
    output_csv_rows records =
      fieldnamesOf (records.map csvFlattenRecord) ::
        (records.map csvFlattenRecord).map
          (fun fr => (fieldnamesOf (records.map csvFlattenRecord)).map (cellFor fr)) ∧
    (∀ fr ∈ records.map csvFlattenRecord, ∀ k, k ∉ fr.map Prod.fst → cellFor fr k = "") ∧
    (∀ fr ∈ records.map csvFlattenRecord, ∀ k, (k, JSON.null) ∈ fr → cellFor fr k = "") := by
  refine ⟨?_, ?_, ?_, ?_, ?_, ?_, ?_⟩
  · intro h
    subst h
    rfl
  · intro k
    simp only [fieldnamesOf, mem_sortStrings, List.mem_dedup, List.mem_flatten]
    constructor
    · rintro ⟨l, hl, hk⟩
      obtain ⟨fr, hfr, rfl⟩ := List.mem_map.mp hl
      exact ⟨fr, hfr, hk⟩
    · rintro ⟨fr, hfr, hk⟩
      exact ⟨fr.map Prod.fst, List.mem_map_of_mem _ hfr, hk⟩
  · exact sortStrings_sorted _
  · exact sortStrings_nodup _ (List.nodup_dedup _)
  · rfl
  · intro fr _ k hk
    rw [cellFor, alookup_eq_none _ _ (by rw [stringifyRow_keys]; exact hk)]
    rfl
  · intro fr hfr k hk
    obtain ⟨r, _, rfl⟩ := List.mem_map.mp hfr
    rw [cellFor, alookup_stringifyRow,
      alookup_of_mem_nodup _ _ _ (csvFlattenRecord_keys_nodup r) hk]
    rfl

/-- Claim C6 (witness): zero records emit nothing; a `None` cell and an
absent column both render empty. -/
theorem c6_witness :
    output_csv_core ([] : List JSON) = "" ∧
    cellFor [("value", JSON.null)] "value" = "" ∧
    cellFor [("value", JSON.num 7)] "other" = "" := by
  refine ⟨(c6_output_csv []).1 rfl, ?_, ?_⟩
  · exact (c6_output_csv [JSON.null]).2.2.2.2.2.2 [("value", JSON.null)]
      (by simp [csvFlattenRecord]) "value" (by simp)
  · exact (c6_output_csv [JSON.num 7]).2.2.2.2.2.1 [("value", JSON.num 7)]
      (by simp [csvFlattenRecord]) "other" (by simp)

/-- Claim C10: a non-mapping record is rendered by `output_csv` as the
one-field flattened record under the single column `value`, and by
`output_text` as its plain `str` form; neither renderer fails on it
(both are total and produce the stated output). -/
theorem c10_non_mapping (r : JSON) (h : isObj r = false) :
    csvFlattenRecord r = [("value", r)] ∧
    textRecordLines r = [pyStr r] ∧
    output_text_core [r] = [pyStr r] := by
  cases r <;> simp_all [csvFlattenRecord, textRecordLines, output_text_core, isObj]

/-- Claim C10 (witness): a bare scalar record. -/
theorem c10_witness :
    isObj (JSON.num 3) = false ∧
    (csvFlattenRecord (JSON.num 3) = [("value", JSON.num 3)] ∧
     textRecordLines (JSON.num 3) = [pyStr (JSON.num 3)] ∧
     output_text_core [JSON.num 3] = [pyStr (JSON.num 3)]) :=
  ⟨rfl, c10_non_mapping (JSON.num 3) rfl⟩

end MMoneyCLI

